import Mathlib

/-!
# GoPull: the repository reconciliation of `cmd/gopull`

A shallow embedding of `cmd/gopull/deploy.go` (and of the configuration
steps of `cmd/gopull/main.go` that feed it), followed by theorems about it.

Modelling conventions

* A Go `error` is its message, a `String`; a function returning `error`
  returns `Option String` (`none` is `nil`).
* The operating system, the file system and the external `git` binary are
  a record of oracles, `World`: the answer each query or command gets.
  Every theorem quantifies over all worlds unless it states a hypothesis.
* What the code does to the outside is a `Trace`, the list of its effects
  in program order: directories it asks to create, files it opens for
  appending, data that reaches a file, commands it runs.
* `log.Printf` output is not part of the model.  A step whose failure the
  source only logs therefore has the same continuation on success and on
  failure; the oracle that answers it stays universally quantified.
-/

namespace GoPull

deriving instance DecidableEq for Except

/-! ## Strings: the `strings` functions the code calls -/

/-- Go's `unicode.IsSpace`: the white space `strings.TrimSpace` removes. -/
def isSpace (c : Char) : Bool :=
  let n := c.toNat
  n == 0x20 || (0x09 ≤ n && n ≤ 0x0D) || n == 0x85 || n == 0xA0 || n == 0x1680
    || (0x2000 ≤ n && n ≤ 0x200A) || n == 0x2028 || n == 0x2029 || n == 0x202F
    || n == 0x205F || n == 0x3000

/-- Characters of a string with leading and trailing white space removed. -/
def trimChars (cs : List Char) : List Char :=
  ((cs.dropWhile isSpace).reverse.dropWhile isSpace).reverse

/-- Go's `strings.TrimSpace`. -/
def trimSpace (s : String) : String := ⟨trimChars s.data⟩

/-- Worker of `splitComma`: `cur` holds the current field, reversed. -/
def splitCommaAux : List Char → List Char → List String
  | [], cur => [⟨cur.reverse⟩]
  | c :: cs, cur =>
    if c = ',' then ⟨cur.reverse⟩ :: splitCommaAux cs [] else splitCommaAux cs (c :: cur)

/-- Go's `strings.Split(s, ",")`. -/
def splitComma (s : String) : List String := splitCommaAux s.data []

/-- Go's `strings.Contains(s, "/")`. -/
def containsSlash (s : String) : Bool := s.data.any (fun c => c == '/')

/-- Go's `s[:strings.LastIndex(s, "/")]`, for a string that contains a slash. -/
def beforeLastSlash (s : String) : String :=
  ⟨((s.data.reverse.dropWhile (fun c => c != '/')).drop 1).reverse⟩

/-- Concatenation of a list of strings, in order. -/
def concatAll : List String → String
  | [] => ""
  | s :: ss => s ++ concatAll ss

/-- The string `b` repeated `n` times. -/
def repeatBlock (b : String) : Nat → String
  | 0 => ""
  | n + 1 => b ++ repeatBlock b n

/-! ## Paths: `path/filepath.Join` on a Unix system -/

/-- Splits a path at its slashes. -/
def splitSlashAux : List Char → List Char → List String
  | [], cur => [⟨cur.reverse⟩]
  | c :: cs, cur =>
    if c = '/' then ⟨cur.reverse⟩ :: splitSlashAux cs [] else splitSlashAux cs (c :: cur)

/-- One step of `filepath.Clean`: `stack` holds the kept elements, last first. -/
def cleanStep (rooted : Bool) (stack : List String) (e : String) : List String :=
  if e = "" ∨ e = "." then stack
  else if e = ".." then
    match stack with
    | [] => if rooted then [] else [".."]
    | top :: rest => if top = ".." then ".." :: top :: rest else rest
  else e :: stack

/-- Elements joined by single slashes. -/
def joinSlash : List String → String
  | [] => ""
  | [e] => e
  | e :: es => e ++ "/" ++ joinSlash es

/-- Go's `filepath.Clean`. -/
def filepathClean (p : String) : String :=
  if p = "" then "."
  else
    let rooted := p.data.head? == some '/'
    let kept := ((splitSlashAux p.data []).foldl (cleanStep rooted) []).reverse
    if rooted then "/" ++ joinSlash kept
    else if kept = [] then "." else joinSlash kept

/-- Go's `filepath.Join`: leading empty elements are skipped, the rest is
joined by slashes and cleaned. -/
def filepathJoin (elems : List String) : String :=
  match elems.dropWhile (fun e => e == "") with
  | [] => ""
  | es => filepathClean (joinSlash es)

/-! ## The data model -/

/-- Configuration of the deploy server (`type DeployServer struct`). -/
structure DeployServer where
  port : Nat
  secretKey : String
  appDir : String
  sshKeyPath : String
  gitIgnore : List String

/-- Repository descriptor of a webhook payload (`type GitHubRepository struct`). -/
structure GitHubRepository where
  SSHURL : String
  CloneURL : String
  Private : Bool
deriving DecidableEq

/-- Webhook payload (`type GitHubPayload struct`). -/
structure GitHubPayload where
  Repository : GitHubRepository
deriving DecidableEq

/-- What `os.Stat` answers, as far as the code tells the answers apart:
`err == nil`, `os.IsNotExist(err)`, any other error. -/
inductive StatResult where
  | found
  | notExist
  | failed
deriving DecidableEq

/-- An `exec.Cmd` as the code builds it: argument vector, working
directory (`""` when `Dir` is not set) and environment. -/
structure Command where
  args : List String
  dir : String
  env : List String
deriving DecidableEq

/-- How far a command run through `StdoutPipe`, `StderrPipe`, `Start` and
`Wait` gets; each failure carries the error's message. -/
inductive PipedOutcome where
  | stdoutPipeErr (e : String)
  | stderrPipeErr (e : String)
  | startErr (e : String)
  | waitErr (e : String)
  | ok
deriving DecidableEq

/-- Result of one `WriteString`: all of the data written, or an error after
the first `n` characters. -/
inductive WriteResult where
  | ok
  | short (n : Nat)
deriving DecidableEq

/-- One effect of the code on its surroundings. A `command` is recorded
when the code has built a command and sets it running, that is on its call
of `Output`, `CombinedOutput`, or of the `StdoutPipe`, `StderrPipe`,
`Start`, `Wait` sequence. -/
inductive Event where
  | mkdirAll (path : String)
  | openAppend (path : String)
  | write (path : String) (data : String)
  | command (c : Command)
deriving DecidableEq

/-- Effects in program order. -/
abbrev Trace := List Event

/-- The surroundings of one call: the answer to every query the code can
make and the outcome of every command it can run. `os.MkdirAll` and
`os.ReadFile` have no oracle: the code only logs what they answer. What
`output` answers to the stash and to the stash drop is only logged too, so
the embedding does not read it. -/
structure World where
  /-- The value of `os.Environ()`. -/
  environ : List String
  /-- The answer of `os.Stat`. -/
  stat : String → StatResult
  /-- The entry names `os.ReadDir` lists, or its error. -/
  readDir : String → Except String (List String)
  /-- Whether `os.OpenFile` with `O_WRONLY|O_CREATE|O_APPEND` succeeds. -/
  openFile : String → Bool
  /-- The result of the `k`-th `WriteString` to the file at a path. -/
  write : String → Nat → String → WriteResult
  /-- The result of `Output` or `CombinedOutput`: the output, or the error. -/
  output : Command → Except String String
  /-- The result of a command run through pipes, `Start` and `Wait`. -/
  run : Command → PipedOutcome
  /-- The result of `json.Unmarshal` into a `GitHubPayload`. -/
  unmarshal : String → Option GitHubPayload

/-! ## `deploy.go` -/

/-- The environment entry that makes git use the deploy key. -/
def gitSSHCommand (sshKeyPath : String) : String :=
  "GIT_SSH_COMMAND=ssh -i " ++ sshKeyPath
    ++ " -o StrictHostKeyChecking=no -o UserKnownHostsFile=/dev/null"

/-- The process environment, with `GIT_SSH_COMMAND` added when the key file
can be stat-ed (deploy.go 86-90 and 174-178). -/
def baseEnv (s : DeployServer) (w : World) : List String :=
  if w.stat s.sshKeyPath = StatResult.found then w.environ ++ [gitSSHCommand s.sshKeyPath]
  else w.environ

/-- Embedding of `isDirectoryEmpty` (deploy.go 62-73). -/
def isDirectoryEmpty (w : World) (dir : String) : Except String Bool :=
  if w.stat dir = StatResult.notExist then Except.ok true
  else
    match w.readDir dir with
    | Except.error e => Except.error e
    | Except.ok entries => Except.ok (entries.length == 0)

/-- The clone command `performGitClone` builds (deploy.go 92-99). -/
def cloneCommand (s : DeployServer) (w : World) (repoURL gitDir : String) : Command :=
  if s.appDir = "/app/public" ∧ gitDir = "/app/public.git" then
    ⟨["git", "clone", "--separate-git-dir=" ++ gitDir, repoURL, s.appDir], "", baseEnv s w⟩
  else
    ⟨["git", "clone", repoURL, s.appDir], "", baseEnv s w⟩

/-- Embedding of `performGitClone` (deploy.go 75-146). -/
def performGitClone (s : DeployServer) (w : World) (repoURL gitDir : String) :
    Trace × Option String :=
  let t0 : Trace :=
    if containsSlash s.appDir then [Event.mkdirAll (beforeLastSlash s.appDir)] else []
  let cmd := cloneCommand s w repoURL gitDir
  let t := t0 ++ [Event.command cmd]
  match w.run cmd with
  | PipedOutcome.stdoutPipeErr e => (t, some ("failed to create stdout pipe: " ++ e))
  | PipedOutcome.stderrPipeErr e => (t, some ("failed to create stderr pipe: " ++ e))
  | PipedOutcome.startErr e => (t, some ("failed to start git clone command: " ++ e))
  | PipedOutcome.waitErr e => (t, some ("git clone failed: " ++ e))
  | PipedOutcome.ok => (t, none)

/-- The remote query `getRemoteURL` builds (deploy.go 149-153). -/
def configCommand (w : World) (gitDir : String) : Command :=
  ⟨["git", "config", "--get", "remote.origin.url"], "", w.environ ++ ["GIT_DIR=" ++ gitDir]⟩

/-- Embedding of `getRemoteURL` (deploy.go 148-165). -/
def getRemoteURL (w : World) (gitDir : String) : Trace × Except String String :=
  let cmd := configCommand w gitDir
  match w.output cmd with
  | Except.error e => ([Event.command cmd], Except.error ("failed to get remote URL: " ++ e))
  | Except.ok out => ([Event.command cmd], Except.ok (trimSpace out))

/-- The locals of `performGitPullRebase` after its layout detection. -/
structure Located where
  gitDir : String
  needsClone : Bool
  repoURL : String
deriving DecidableEq

/-- The remote lookup the source repeats for a metadata directory it
settled on (deploy.go 213-226, again 237-250 and 253-266): `needsClone`
stays false; the supplied URL is kept when it is not empty, else the
configured remote is taken; a failed lookup is an error only when no URL
was supplied. -/
def useExistingRemote (w : World) (gitDir repoURL : String) : Trace × Except String Located :=
  match getRemoteURL w gitDir with
  | (t, Except.error e) =>
    if repoURL ≠ "" then (t, Except.ok ⟨gitDir, false, repoURL⟩)
    else (t, Except.error ("failed to get remote URL: " ++ e))
  | (t, Except.ok existingRepoURL) =>
    (t, Except.ok ⟨gitDir, false, if repoURL = "" then existingRepoURL else repoURL⟩)

/-- Layout detection of `performGitPullRebase` (deploy.go 180-268): which
metadata directory is used, whether a clone is needed and which URL is in
`repoURL` afterwards; an error is the early return of lines 219, 243, 259. -/
def locate (s : DeployServer) (w : World) (repoURL : String) : Trace × Except String Located :=
  if s.appDir = "/app/public" then
    let gitDir := "/app/public.git"
    let t0 : Trace := [Event.mkdirAll "/app"]
    if w.stat gitDir = StatResult.notExist then
      match isDirectoryEmpty w s.appDir with
      | Except.error _ => (t0, Except.ok ⟨gitDir, true, repoURL⟩)
      | Except.ok false => (t0, Except.ok ⟨gitDir, false, repoURL⟩)
      | Except.ok true => (t0, Except.ok ⟨gitDir, true, repoURL⟩)
    else
      match isDirectoryEmpty w gitDir with
      | Except.error _ => (t0, Except.ok ⟨gitDir, true, repoURL⟩)
      | Except.ok true => (t0, Except.ok ⟨gitDir, true, repoURL⟩)
      | Except.ok false =>
        let r := useExistingRemote w gitDir repoURL
        (t0 ++ r.1, r.2)
  else
    let gitDir := s.appDir ++ "/.git"
    if w.stat gitDir = StatResult.notExist then
      let gitDir := s.appDir ++ ".git"
      if w.stat gitDir = StatResult.notExist then
        ([], Except.ok ⟨gitDir, true, repoURL⟩)
      else useExistingRemote w gitDir repoURL
    else useExistingRemote w gitDir repoURL

/-- The environment of the stash, pull and drop commands (deploy.go 277-278). -/
def updateEnv (s : DeployServer) (w : World) (gitDir : String) : List String :=
  baseEnv s w ++ ["GIT_DIR=" ++ gitDir, "GIT_WORK_TREE=" ++ s.appDir]

/-- The command `git stash -u` (deploy.go 281-283). -/
def stashCommand (s : DeployServer) (w : World) (gitDir : String) : Command :=
  ⟨["git", "stash", "-u"], s.appDir, updateEnv s w gitDir⟩

/-- The command `git pull --rebase` (deploy.go 296, 336-338). -/
def pullCommand (s : DeployServer) (w : World) (gitDir : String) : Command :=
  ⟨["git", "pull", "--rebase"], s.appDir, updateEnv s w gitDir⟩

/-- The command `git stash drop` (deploy.go 385-387). -/
def dropCommand (s : DeployServer) (w : World) (gitDir : String) : Command :=
  ⟨["git", "stash", "drop"], s.appDir, updateEnv s w gitDir⟩

/-- One `excludeFile.WriteString(data)` as the `k`-th write: the data that
reaches the file; an error is only logged. -/
def writeString (w : World) (path : String) (k : Nat) (data : String) : Trace :=
  match w.write path k data with
  | WriteResult.ok => [Event.write path data]
  | WriteResult.short n => [Event.write path ⟨data.data.take n⟩]

/-- The loop over the patterns (deploy.go 322-330); `k` counts the writes
made so far. -/
def writePatterns (w : World) (path : String) : List String → Nat → Trace
  | [], _ => []
  | pattern :: rest, k =>
    let pattern := trimSpace pattern
    if pattern ≠ "" then
      writeString w path k (pattern ++ "\n") ++ writePatterns w path rest (k + 1)
    else writePatterns w path rest k

/-- The header `performGitPullRebase` writes before the patterns. -/
def excludeHeader : String := "\n# Added by GoPull GITIGNORE\n"

/-- The path of the exclude file of a metadata directory (deploy.go 299). -/
def excludePath (gitDir : String) : String := filepathJoin [gitDir, "info", "exclude"]

/-- The ignore-pattern step of `performGitPullRebase` (deploy.go 298-334). -/
def writeIgnore (s : DeployServer) (w : World) (gitDir : String) : Trace :=
  if s.gitIgnore.length > 0 then
    let path := excludePath gitDir
    let infoDir := filepathJoin [gitDir, "info"]
    let t0 : Trace := [Event.mkdirAll infoDir]
    if w.openFile path then
      t0 ++ [Event.openAppend path] ++ writeString w path 0 excludeHeader
        ++ writePatterns w path s.gitIgnore 1
    else t0
  else []

/-- The update sequence of `performGitPullRebase` (deploy.go 277-399), run
on the metadata directory `gitDir`. -/
def updateSequence (s : DeployServer) (w : World) (gitDir : String) : Trace × Option String :=
  let t := [Event.command (stashCommand s w gitDir)] ++ writeIgnore s w gitDir
    ++ [Event.command (pullCommand s w gitDir)]
  match w.run (pullCommand s w gitDir) with
  | PipedOutcome.stdoutPipeErr e => (t, some ("failed to create stdout pipe: " ++ e))
  | PipedOutcome.stderrPipeErr e => (t, some ("failed to create stderr pipe: " ++ e))
  | PipedOutcome.startErr e => (t, some ("failed to start git pull command: " ++ e))
  | PipedOutcome.waitErr e => (t, some ("git pull rebase failed: " ++ e))
  | PipedOutcome.ok => (t ++ [Event.command (dropCommand s w gitDir)], none)

/-- Embedding of `performGitPullRebase` (deploy.go 167-400). -/
def performGitPullRebase (s : DeployServer) (w : World) (repoURL : String) :
    Trace × Option String :=
  match locate s w repoURL with
  | (t, Except.error e) => (t, some e)
  | (t, Except.ok loc) =>
    if loc.needsClone then
      if loc.repoURL = "" then (t, some "cannot clone: repository URL not found")
      else
        let r := performGitClone s w loc.repoURL loc.gitDir
        (t ++ r.1, r.2)
    else
      let r := updateSequence s w loc.gitDir
      (t ++ r.1, r.2)

/-- Embedding of `CheckForUpdates` (deploy.go 57-60). -/
def CheckForUpdates (s : DeployServer) (w : World) (repoURL : String) : Trace × Option String :=
  performGitPullRebase s w repoURL

/-- An incoming HTTP request, as far as `handleDeployRequest` reads it: the
method, the value of `r.URL.Query().Get("deploy")` (empty when the
parameter is missing) and the result of `io.ReadAll(r.Body)`. -/
structure Request where
  method : String
  deploy : String
  body : Except String String

/-- The HTTP response written: status code and body. -/
structure Response where
  status : Nat
  body : String
deriving DecidableEq

/-- Go's `http.Error`. -/
def httpError (msg : String) (code : Nat) : Response := ⟨code, msg ++ "\n"⟩

/-- The URL choice of `handleDeployRequest` for a parsed payload
(deploy.go 441-474). -/
def chooseRepoURL (payload : GitHubPayload) (privateKeyExists : Bool) : String :=
  let repoURL :=
    if payload.Repository.Private then
      if privateKeyExists then
        if payload.Repository.SSHURL ≠ "" then payload.Repository.SSHURL else ""
      else
        if payload.Repository.CloneURL ≠ "" then payload.Repository.CloneURL else ""
    else
      if payload.Repository.CloneURL ≠ "" then payload.Repository.CloneURL else ""
  if repoURL = "" then
    if privateKeyExists ∧ payload.Repository.SSHURL ≠ "" then payload.Repository.SSHURL
    else if payload.Repository.CloneURL ≠ "" then payload.Repository.CloneURL
    else repoURL
  else repoURL

/-- The value of `repoURL` that `handleDeployRequest` passes on for a
request body (deploy.go 428-475). -/
def requestRepoURL (s : DeployServer) (w : World) (body : String) : String :=
  match w.unmarshal body with
  | none => ""
  | some payload => chooseRepoURL payload (decide (w.stat s.sshKeyPath = StatResult.found))

/-- What one call of `handleDeployRequest` did: the response, the argument
of its call of `performGitPullRebase` (`none` when it made no call) and
the effects. -/
structure Handled where
  response : Response
  reconciled : Option String
  trace : Trace

/-- Embedding of `handleDeployRequest` (deploy.go 402-487). -/
def handleDeployRequest (s : DeployServer) (w : World) (r : Request) : Handled :=
  if r.method ≠ "POST" then ⟨httpError "Method not allowed" 405, none, []⟩
  else
    let rejected : Option Response :=
      if s.secretKey ≠ "" then
        if r.deploy = "" then some (httpError "API key is required" 400)
        else if r.deploy ≠ s.secretKey then some (httpError "Invalid API key" 401)
        else none
      else none
    match rejected with
    | some resp => ⟨resp, none, []⟩
    | none =>
      match r.body with
      | Except.error _ => ⟨httpError "Error reading request body" 400, none, []⟩
      | Except.ok body =>
        let repoURL := requestRepoURL s w body
        match performGitPullRebase s w repoURL with
        | (t, some err) =>
          ⟨httpError ("Failed to update repository: " ++ err) 500, some repoURL, t⟩
        | (t, none) => ⟨⟨200, "Deployment successful"⟩, some repoURL, t⟩

/-! ## `main.go` -/

/-- The ignore patterns `main` reads from `GITIGNORE` (main.go 29-34). -/
def parseGitIgnore (gitIgnoreStr : String) : List String :=
  if gitIgnoreStr ≠ "" then splitComma gitIgnoreStr else []

/-- The mode check of `main` (main.go 36-58) on the value of `PRIVATE`,
the secret key in force (the flag, or `DEPLOY_KEY` when set, main.go 22-25)
and the value of `GIT_REPOURL`: the message of `log.Fatal`, or the lines
logged. -/
def modeCheck (envPrivate secretKey gitRepoURL : String) : Except String (List String) :=
  if envPrivate = "true" then
    if secretKey = "" then
      Except.error ("Secret key is required in PRIVATE mode. Set it via DEPLOY_KEY "
        ++ "environment variable or --secret-key flag")
    else Except.ok ["Running in PRIVATE mode, SSH keys will be generated"]
  else
    if gitRepoURL = "" then
      Except.error ("GIT_REPOURL is required in non-PRIVATE mode. Set it via GIT_REPOURL "
        ++ "environment variable")
    else if secretKey = "" then
      Except.ok ["Running in non-PRIVATE mode, SSH keys will not be generated",
        "No DEPLOY_KEY provided. Webhook functionality will be disabled."]
    else Except.ok ["Running in non-PRIVATE mode, SSH keys will not be generated"]

/-! ## Reading a trace -/

/-- The commands of a trace, in order. -/
def commands : Trace → List Command
  | [] => []
  | Event.command c :: t => c :: commands t
  | _ :: t => commands t

/-- The data written to the file at `path`, one entry per write, in order. -/
def writesTo (path : String) : Trace → List String
  | [] => []
  | Event.write p d :: t => if p = path then d :: writesTo path t else writesTo path t
  | _ :: t => writesTo path t

/-- The content of the file at `path` after the effects of a trace, when
it held `c` before: every write appends. -/
def fileAfter (path : String) (c : String) (t : Trace) : String :=
  c ++ concatAll (writesTo path t)

/-- The content of the file at `path` after one call of
`performGitPullRebase` per entry of `runs`, each in its own world and with
its own supplied URL, when nothing else writes to the file in between. -/
def fileAfterRuns (s : DeployServer) (path : String) : List (World × String) → String → String
  | [], c => c
  | (w, url) :: rest, c =>
    fileAfterRuns s path rest (fileAfter path c (performGitPullRebase s w url).1)

/-- Whether a command is a `git clone`. -/
def isClone (c : Command) : Bool := c.args.take 2 == ["git", "clone"]

/-- Whether a command is `git stash drop`, `git stash pop` or `git stash apply`. -/
def isStashRestore (c : Command) : Bool :=
  c.args.take 3 == ["git", "stash", "drop"] || c.args.take 3 == ["git", "stash", "pop"]
    || c.args.take 3 == ["git", "stash", "apply"]

/-- Closed form of what the loop of deploy.go 322-330 writes when no write
fails (`writesTo_writePatterns` below): every pattern that is not blank,
trimmed, with a line end. -/
def patternLines (patterns : List String) : List String :=
  ((patterns.map trimSpace).filter (fun p => p ≠ "")).map (fun p => p ++ "\n")

/-- The block one run appends to the exclude file when every write succeeds. -/
def ignoreBlock (patterns : List String) : String :=
  excludeHeader ++ concatAll (patternLines patterns)

/-- The directory `g` is the metadata store the layout detection looks at
for the target directory, it exists and it is not empty: `/app/public.git`
for the default target; for another target `<appDir>/.git`, or
`<appDir>.git` when `<appDir>/.git` does not exist. -/
def hasStore (s : DeployServer) (w : World) (g : String) : Prop :=
  w.stat g = StatResult.found ∧ isDirectoryEmpty w g = Except.ok false ∧
    ((s.appDir = "/app/public" ∧ g = "/app/public.git") ∨
      (s.appDir ≠ "/app/public" ∧ g = s.appDir ++ "/.git") ∨
      (s.appDir ≠ "/app/public" ∧ w.stat (s.appDir ++ "/.git") = StatResult.notExist ∧
        g = s.appDir ++ ".git"))

/-- No metadata store exists for the target directory: `/app/public.git` is
missing for the default target, both `<appDir>/.git` and `<appDir>.git` are
missing for another one. -/
def noStore (s : DeployServer) (w : World) : Prop :=
  (s.appDir = "/app/public" ∧ w.stat "/app/public.git" = StatResult.notExist) ∨
    (s.appDir ≠ "/app/public" ∧ w.stat (s.appDir ++ "/.git") = StatResult.notExist ∧
      w.stat (s.appDir ++ ".git") = StatResult.notExist)

/-- The target is the default `/app/public` and it already lists entries. -/
def populatedDefault (s : DeployServer) (w : World) : Prop :=
  s.appDir = "/app/public" ∧ isDirectoryEmpty w s.appDir = Except.ok false

/-! ## Concrete servers and worlds -/

/-- A server on the default target directory with the given patterns. -/
def defaultServer (patterns : List String) : DeployServer :=
  ⟨15800, "", "/app/public", "/keys/id_rsa", patterns⟩

/-- A server on the target directory `/srv/site`. -/
def siteServer : DeployServer := ⟨15800, "", "/srv/site", "/keys/id_rsa", []⟩

/-- Nothing exists on disk and every command succeeds. -/
def freshWorld : World where
  environ := ["PATH=/usr/bin"]
  stat := fun _ => StatResult.notExist
  readDir := fun _ => Except.error "no such file or directory"
  openFile := fun _ => false
  write := fun _ _ _ => WriteResult.ok
  output := fun _ => Except.ok ""
  run := fun _ => PipedOutcome.ok
  unmarshal := fun _ => none

/-- The directory `/app/public` holds one file, `/app/public.git` does not
exist, and git fails as it does outside a repository. -/
def populatedWorld : World where
  environ := ["PATH=/usr/bin"]
  stat := fun p => if p = "/app/public" then StatResult.found else StatResult.notExist
  readDir := fun p =>
    if p = "/app/public" then Except.ok ["index.html"]
    else Except.error "no such file or directory"
  openFile := fun _ => true
  write := fun _ _ _ => WriteResult.ok
  output := fun _ => Except.error "exit status 128"
  run := fun _ => PipedOutcome.waitErr "exit status 128"
  unmarshal := fun _ => none

/-- A checkout of `git@example.test:org/repo.git` in `/app/public` with its
metadata in `/app/public.git`; every command succeeds. -/
def clonedWorld : World where
  environ := ["PATH=/usr/bin"]
  stat := fun p =>
    if p = "/app/public" ∨ p = "/app/public.git" then StatResult.found
    else StatResult.notExist
  readDir := fun p =>
    if p = "/app/public" then Except.ok [".git", "index.html"]
    else if p = "/app/public.git" then Except.ok ["HEAD", "config", "info"]
    else Except.error "no such file or directory"
  openFile := fun _ => true
  write := fun _ _ _ => WriteResult.ok
  output := fun c =>
    if c.args = ["git", "config", "--get", "remote.origin.url"] then
      Except.ok "git@example.test:org/repo.git\n"
    else Except.ok ""
  run := fun _ => PipedOutcome.ok
  unmarshal := fun _ => none

/-- The world `clonedWorld` with no remote configured: the remote query fails. -/
def noRemoteWorld : World :=
  { clonedWorld with
    output := fun _ => Except.error "exit status 1"
    run := fun _ => PipedOutcome.waitErr "exit status 1" }

/-- The world `clonedWorld` with a pull that ends in a conflict. -/
def conflictWorld : World :=
  { clonedWorld with run := fun _ => PipedOutcome.waitErr "exit status 1" }

/-- The world `clonedWorld` with every advisory step failing: stash and
stash drop exit with an error, the exclude file cannot be opened. -/
def advisoryFailWorld : World :=
  { clonedWorld with
    openFile := fun _ => false
    write := fun _ _ _ => WriteResult.short 0
    output := fun c =>
      if c.args = ["git", "config", "--get", "remote.origin.url"] then
        Except.ok "git@example.test:org/repo.git\n"
      else Except.error "exit status 1" }

/-- The directory `/srv/site/.git` exists and has no entry, as a clone that
broke off leaves it; git fails as it does outside a repository. -/
def emptyEmbeddedWorld : World where
  environ := ["PATH=/usr/bin"]
  stat := fun p =>
    if p = "/srv/site" ∨ p = "/srv/site/.git" then StatResult.found else StatResult.notExist
  readDir := fun p =>
    if p = "/srv/site" then Except.ok [".git"]
    else if p = "/srv/site/.git" then Except.ok []
    else Except.error "no such file or directory"
  openFile := fun _ => true
  write := fun _ _ _ => WriteResult.ok
  output := fun _ => Except.error "exit status 1"
  run := fun c =>
    if c.args.take 2 = ["git", "clone"] then PipedOutcome.ok
    else PipedOutcome.waitErr "exit status 128"
  unmarshal := fun _ => none

/-- The directory `/app/public.git` exists and has no entry; a clone would
succeed. -/
def emptySeparateWorld : World where
  environ := ["PATH=/usr/bin"]
  stat := fun p => if p = "/app/public.git" then StatResult.found else StatResult.notExist
  readDir := fun p =>
    if p = "/app/public.git" then Except.ok []
    else Except.error "no such file or directory"
  openFile := fun _ => true
  write := fun _ _ _ => WriteResult.ok
  output := fun _ => Except.error "exit status 1"
  run := fun c =>
    if c.args.take 2 = ["git", "clone"] then PipedOutcome.ok
    else PipedOutcome.waitErr "exit status 128"
  unmarshal := fun _ => none

/-! ## Lemmas on traces -/

theorem commands_append (a b : Trace) : commands (a ++ b) = commands a ++ commands b := by
  induction a with
  | nil => rfl
  | cons e a ih => cases e <;> simp [commands, ih]

theorem writesTo_append (p : String) (a b : Trace) :
    writesTo p (a ++ b) = writesTo p a ++ writesTo p b := by
  induction a with
  | nil => rfl
  | cons e a ih =>
    cases e <;> simp [writesTo, ih]
    split <;> simp

theorem mem_commands (c : Command) (t : Trace) : c ∈ commands t ↔ Event.command c ∈ t := by
  induction t with
  | nil => simp [commands]
  | cons e t ih => cases e <;> simp [commands, ih]

theorem writesTo_eq_nil (p : String) (t : Trace) (h : ∀ d, Event.write p d ∉ t) :
    writesTo p t = [] := by
  induction t with
  | nil => rfl
  | cons e t ih =>
    have ht : ∀ d, Event.write p d ∉ t := fun d hd => h d (List.mem_cons_of_mem _ hd)
    cases e with
    | write q d =>
      have hq : q ≠ p := by
        rintro rfl
        exact h d (List.mem_cons_self _ _)
      simp [writesTo, hq, ih ht]
    | mkdirAll q => simpa [writesTo] using ih ht
    | openAppend q => simpa [writesTo] using ih ht
    | command c => simpa [writesTo] using ih ht

/-! ## Lemmas on the clone and on the update sequence -/

theorem performGitClone_trace (s : DeployServer) (w : World) (u g : String) :
    (performGitClone s w u g).1 =
      (if containsSlash s.appDir then [Event.mkdirAll (beforeLastSlash s.appDir)] else [])
        ++ [Event.command (cloneCommand s w u g)] := by
  unfold performGitClone
  dsimp only
  split <;> rfl

theorem performGitClone_commands (s : DeployServer) (w : World) (u g : String) :
    commands (performGitClone s w u g).1 = [cloneCommand s w u g] := by
  rw [performGitClone_trace, commands_append]
  split <;> simp [commands]

theorem performGitClone_result (s : DeployServer) (w : World) (u g : String) :
    (performGitClone s w u g).2 = none ↔ w.run (cloneCommand s w u g) = PipedOutcome.ok := by
  unfold performGitClone
  dsimp only
  split <;> simp_all

theorem cloneCommand_args (s : DeployServer) (w : World) (u : String) :
    cloneCommand s w u (if s.appDir = "/app/public" then "/app/public.git" else s.appDir ++ ".git")
      = ⟨if s.appDir = "/app/public" then
          ["git", "clone", "--separate-git-dir=/app/public.git", u, s.appDir]
        else ["git", "clone", u, s.appDir], "", baseEnv s w⟩ := by
  unfold cloneCommand
  by_cases hd : s.appDir = "/app/public"
  · simp [hd]
  · simp [hd]

theorem commands_writeString (w : World) (p : String) (k : Nat) (d : String) :
    commands (writeString w p k d) = [] := by
  unfold writeString
  split <;> rfl

theorem commands_writePatterns (w : World) (p : String) (ps : List String) (k : Nat) :
    commands (writePatterns w p ps k) = [] := by
  induction ps generalizing k with
  | nil => rfl
  | cons a ps ih =>
    unfold writePatterns
    dsimp only
    split
    · rw [commands_append, commands_writeString, ih]; rfl
    · exact ih k

theorem commands_writeIgnore (s : DeployServer) (w : World) (g : String) :
    commands (writeIgnore s w g) = [] := by
  unfold writeIgnore
  dsimp only
  split
  · split
    · simp [commands_append, commands_writeString, commands_writePatterns, commands]
    · rfl
  · rfl

theorem updateSequence_trace (s : DeployServer) (w : World) (g : String) :
    (updateSequence s w g).1 =
      [Event.command (stashCommand s w g)] ++ writeIgnore s w g
        ++ [Event.command (pullCommand s w g)]
        ++ (if w.run (pullCommand s w g) = PipedOutcome.ok then
            [Event.command (dropCommand s w g)] else []) := by
  unfold updateSequence
  dsimp only
  split <;> simp_all

theorem updateSequence_commands (s : DeployServer) (w : World) (g : String) :
    commands (updateSequence s w g).1 =
      stashCommand s w g :: pullCommand s w g ::
        (if w.run (pullCommand s w g) = PipedOutcome.ok then [dropCommand s w g] else []) := by
  rw [updateSequence_trace]
  split <;> simp [commands_append, commands_writeIgnore, commands]

theorem updateSequence_result (s : DeployServer) (w : World) (g : String) :
    (updateSequence s w g).2 = none ↔ w.run (pullCommand s w g) = PipedOutcome.ok := by
  unfold updateSequence
  dsimp only
  split <;> simp_all

theorem updateSequence_ne_cannot (s : DeployServer) (w : World) (g : String) :
    (updateSequence s w g).2 ≠ some "cannot clone: repository URL not found" := by
  unfold updateSequence
  dsimp only
  split <;> intro h <;> simp only [Option.some.injEq, reduceCtorEq] at h <;>
    exact absurd (congrArg (fun x => x.data.head?) h) (by simp)

theorem isClone_update (s : DeployServer) (w : World) (g : String) :
    ∀ c ∈ commands (updateSequence s w g).1, isClone c = false := by
  intro c hc
  rw [updateSequence_commands] at hc
  split at hc
  · simp only [List.mem_cons, List.mem_singleton, List.not_mem_nil, or_false] at hc
    rcases hc with rfl | rfl | rfl <;> rfl
  · simp only [List.mem_cons, List.not_mem_nil, or_false] at hc
    rcases hc with rfl | rfl <;> rfl

/-! ## Lemmas on the layout detection -/

theorem useExistingRemote_trace (w : World) (g u : String) :
    (useExistingRemote w g u).1 = [Event.command (configCommand w g)] := by
  unfold useExistingRemote getRemoteURL
  dsimp only
  cases w.output (configCommand w g) with
  | error e => dsimp only; split <;> rfl
  | ok out => rfl

theorem useExistingRemote_ok (w : World) (g out : String)
    (h : w.output (configCommand w g) = Except.ok out) :
    (useExistingRemote w g "").2 = Except.ok ⟨g, false, trimSpace out⟩ := by
  unfold useExistingRemote getRemoteURL
  dsimp only
  rw [h]
  rfl

theorem useExistingRemote_error (w : World) (g e : String)
    (h : w.output (configCommand w g) = Except.error e) :
    (useExistingRemote w g "").2 =
      Except.error ("failed to get remote URL: " ++ ("failed to get remote URL: " ++ e)) := by
  unfold useExistingRemote getRemoteURL
  dsimp only
  rw [h]
  rfl

theorem locate_default_absent (s : DeployServer) (w : World) (u : String)
    (hd : s.appDir = "/app/public") (hs : w.stat "/app/public.git" = StatResult.notExist) :
    locate s w u = ([Event.mkdirAll "/app"],
      Except.ok ⟨"/app/public.git",
        if isDirectoryEmpty w s.appDir = Except.ok false then false else true, u⟩) := by
  unfold locate
  simp only [hd, hs, if_true]
  cases h : isDirectoryEmpty w "/app/public" with
  | error e => simp
  | ok b => cases b <;> simp

theorem locate_other_absent (s : DeployServer) (w : World) (u : String)
    (hd : s.appDir ≠ "/app/public") (h1 : w.stat (s.appDir ++ "/.git") = StatResult.notExist)
    (h2 : w.stat (s.appDir ++ ".git") = StatResult.notExist) :
    locate s w u = ([], Except.ok ⟨s.appDir ++ ".git", true, u⟩) := by
  unfold locate
  simp [hd, h1, h2]

theorem locate_existing (s : DeployServer) (w : World) (g u : String) (h : hasStore s w g) :
    locate s w u =
      ((if s.appDir = "/app/public" then [Event.mkdirAll "/app"] else [])
          ++ [Event.command (configCommand w g)], (useExistingRemote w g u).2) := by
  obtain ⟨hf, hne, hlay⟩ := h
  have ht := useExistingRemote_trace w g u
  unfold locate
  rcases hlay with ⟨hd, rfl⟩ | ⟨hd, rfl⟩ | ⟨hd, h1, rfl⟩
  · simp only [hd, hf, hne, if_true]
    rw [if_neg (by decide)]
    simp only [ht]
  · simp only [hd, hf, if_false]
    rw [if_neg (by decide)]
    exact Prod.ext (by simpa using ht) rfl
  · simp only [hd, hf, h1, if_false, if_true]
    rw [if_neg (by decide)]
    exact Prod.ext (by simpa using ht) rfl

theorem locate_events (s : DeployServer) (w : World) (u : String) :
    ∀ e ∈ (locate s w u).1,
      e = Event.mkdirAll "/app" ∨ ∃ g, e = Event.command (configCommand w g) := by
  unfold locate
  dsimp only
  by_cases hd : s.appDir = "/app/public"
  · rw [if_pos hd]
    by_cases hs : w.stat "/app/public.git" = StatResult.notExist
    · rw [if_pos hs]
      cases isDirectoryEmpty w s.appDir with
      | error e => simp
      | ok b => cases b <;> simp
    · rw [if_neg hs]
      cases isDirectoryEmpty w "/app/public.git" with
      | error e => simp
      | ok b =>
        cases b
        · dsimp only
          rw [useExistingRemote_trace]
          intro e he
          simp only [List.mem_append, List.mem_singleton] at he
          rcases he with he | he
          · exact Or.inl he
          · exact Or.inr ⟨_, he⟩
        · simp
  · rw [if_neg hd]
    by_cases h1 : w.stat (s.appDir ++ "/.git") = StatResult.notExist
    · rw [if_pos h1]
      by_cases h2 : w.stat (s.appDir ++ ".git") = StatResult.notExist
      · rw [if_pos h2]
        simp
      · rw [if_neg h2, useExistingRemote_trace]
        intro e he
        exact Or.inr ⟨_, List.mem_singleton.mp he⟩
    · rw [if_neg h1, useExistingRemote_trace]
      intro e he
      exact Or.inr ⟨_, List.mem_singleton.mp he⟩

theorem locate_commands (s : DeployServer) (w : World) (u : String) :
    ∀ c ∈ commands (locate s w u).1, c.args = ["git", "config", "--get", "remote.origin.url"] := by
  intro c hc
  rw [mem_commands] at hc
  rcases locate_events s w u _ hc with h | ⟨g, h⟩
  · cases h
  · cases h; rfl

theorem locate_writes (s : DeployServer) (w : World) (u p : String) :
    writesTo p (locate s w u).1 = [] := by
  apply writesTo_eq_nil
  intro d hd
  rcases locate_events s w u _ hd with h | ⟨g, h⟩ <;> cases h

/-! ## Lemmas on `performGitPullRebase` -/

theorem performGitPullRebase_clone (s : DeployServer) (w : World) (u : String) (t : Trace)
    (g u' : String) (h : locate s w u = (t, Except.ok ⟨g, true, u'⟩)) (hu : u' ≠ "") :
    performGitPullRebase s w u = (t ++ (performGitClone s w u' g).1, (performGitClone s w u' g).2) := by
  unfold performGitPullRebase
  rw [h]
  simp [hu]

theorem performGitPullRebase_noURL (s : DeployServer) (w : World) (u : String) (t : Trace)
    (g : String) (h : locate s w u = (t, Except.ok ⟨g, true, ""⟩)) :
    performGitPullRebase s w u = (t, some "cannot clone: repository URL not found") := by
  unfold performGitPullRebase
  rw [h]
  simp

theorem performGitPullRebase_error (s : DeployServer) (w : World) (u : String) (t : Trace)
    (e : String) (h : locate s w u = (t, Except.error e)) :
    performGitPullRebase s w u = (t, some e) := by
  unfold performGitPullRebase
  rw [h]

theorem performGitPullRebase_update (s : DeployServer) (w : World) (u : String) (loc : Located)
    (h : (locate s w u).2 = Except.ok loc) (hn : loc.needsClone = false) :
    performGitPullRebase s w u =
      ((locate s w u).1 ++ (updateSequence s w loc.gitDir).1, (updateSequence s w loc.gitDir).2) := by
  obtain ⟨g, n, u'⟩ := loc
  simp only at hn
  subst hn
  have hl : locate s w u = ((locate s w u).1, Except.ok ⟨g, false, u'⟩) := Prod.ext rfl h
  unfold performGitPullRebase
  rw [hl]
  simp

/-! ## C1, C2: no metadata store -/

/-- C1 (amended): when no metadata store exists for the target directory
and a non-empty URL is supplied, then, unless the target is the default
`/app/public` and already lists entries, `performGitPullRebase` runs exactly
one command, the clone of that URL into the target directory (so no stash,
pull or stash drop), and returns `nil` exactly when that clone succeeds. In
the excepted case, the populated default target, it runs no clone. -/
theorem absent_store_clones_once (s : DeployServer) (w : World) (repoURL : String)
    (hurl : repoURL ≠ "") (hstore : noStore s w) :
    (¬ populatedDefault s w →
      ∃ c : Command, commands (performGitPullRebase s w repoURL).1 = [c] ∧
        c.args = (if s.appDir = "/app/public" then
            ["git", "clone", "--separate-git-dir=/app/public.git", repoURL, s.appDir]
          else ["git", "clone", repoURL, s.appDir]) ∧
        ((performGitPullRebase s w repoURL).2 = none ↔ w.run c = PipedOutcome.ok)) ∧
    (populatedDefault s w →
      ∀ c ∈ commands (performGitPullRebase s w repoURL).1, isClone c = false) := by
  constructor
  · intro hne
    have hclone : ∃ t, locate s w repoURL = (t, Except.ok
        ⟨if s.appDir = "/app/public" then "/app/public.git" else s.appDir ++ ".git",
          true, repoURL⟩) := by
      rcases hstore with ⟨hd, hs⟩ | ⟨hd, h1, h2⟩
      · have hl := locate_default_absent s w repoURL hd hs
        rw [if_neg (fun h => hne ⟨hd, h⟩)] at hl
        exact ⟨_, by rw [hl, if_pos hd]⟩
      · exact ⟨_, by rw [locate_other_absent s w repoURL hd h1 h2, if_neg hd]⟩
    obtain ⟨t, hl⟩ := hclone
    have ht : commands t = [] := by
      rcases hstore with ⟨hd, hs⟩ | ⟨hd, h1, h2⟩
      · have hl' := locate_default_absent s w repoURL hd hs
        rw [hl] at hl'
        rw [(Prod.mk.inj hl').1]
        rfl
      · have hl' := locate_other_absent s w repoURL hd h1 h2
        rw [hl] at hl'
        rw [(Prod.mk.inj hl').1]
        rfl
    refine ⟨cloneCommand s w repoURL
      (if s.appDir = "/app/public" then "/app/public.git" else s.appDir ++ ".git"), ?_, ?_, ?_⟩
    · rw [performGitPullRebase_clone s w repoURL t _ _ hl hurl]
      simp only [commands_append, performGitClone_commands, ht, List.nil_append]
    · rw [cloneCommand_args]
    · rw [performGitPullRebase_clone s w repoURL t _ _ hl hurl]
      exact performGitClone_result s w repoURL _
  · rintro ⟨hd, hp⟩ c hc
    rcases hstore with ⟨_, hs⟩ | ⟨hd', _⟩
    · have hl := locate_default_absent s w repoURL hd hs
      rw [if_pos hp] at hl
      rw [performGitPullRebase_update s w repoURL ⟨_, false, _⟩ (by rw [hl]) rfl, hl] at hc
      simp only [commands_append, commands, List.nil_append] at hc
      exact isClone_update s w _ c hc
    · exact absurd hd hd'

/-- Witness of C1: the default target is absent and the clone of
`https://example.test/repo.git` succeeds. -/
theorem absent_store_clones_once_witness :
    ("https://example.test/repo.git" ≠ "" ∧ noStore (defaultServer []) freshWorld ∧
      ¬ populatedDefault (defaultServer []) freshWorld) ∧
    ∃ c : Command,
      commands (performGitPullRebase (defaultServer []) freshWorld
        "https://example.test/repo.git").1 = [c] ∧
      c.args = (if (defaultServer []).appDir = "/app/public" then
          ["git", "clone", "--separate-git-dir=/app/public.git",
            "https://example.test/repo.git", (defaultServer []).appDir]
        else ["git", "clone", "https://example.test/repo.git", (defaultServer []).appDir]) ∧
      ((performGitPullRebase (defaultServer []) freshWorld
        "https://example.test/repo.git").2 = none ↔ freshWorld.run c = PipedOutcome.ok) :=
  ⟨⟨by decide, Or.inl ⟨rfl, rfl⟩, by unfold populatedDefault; decide⟩,
    (absent_store_clones_once (defaultServer []) freshWorld "https://example.test/repo.git"
      (by decide) (Or.inl ⟨rfl, rfl⟩)).1 (by unfold populatedDefault; decide)⟩

/-- Counterexample to C1 as stated: `/app/public` holds a file, there is no
`/app/public.git`, a URL is supplied; the code runs no clone, it runs the
stash and the pull. -/
theorem populated_default_not_cloned :
    noStore (defaultServer []) populatedWorld ∧
    "https://example.test/repo.git" ≠ "" ∧
    (commands (performGitPullRebase (defaultServer []) populatedWorld
        "https://example.test/repo.git").1).map (fun c => c.args)
      = [["git", "stash", "-u"], ["git", "pull", "--rebase"]] ∧
    (performGitPullRebase (defaultServer []) populatedWorld
        "https://example.test/repo.git").2
      = some "git pull rebase failed: exit status 128" :=
  ⟨Or.inl ⟨rfl, rfl⟩, by decide, by decide, by decide⟩

/-- C2 (amended): when no metadata store exists for the target directory
and the supplied URL is empty, then, unless the target is the default
`/app/public` and already lists entries, `performGitPullRebase` returns the
error `cannot clone: repository URL not found` and runs no command at all.
In the excepted case that error is not what it returns. -/
theorem absent_store_empty_url_fails (s : DeployServer) (w : World) (hstore : noStore s w) :
    (¬ populatedDefault s w →
      (performGitPullRebase s w "").2 = some "cannot clone: repository URL not found" ∧
        commands (performGitPullRebase s w "").1 = []) ∧
    (populatedDefault s w →
      (performGitPullRebase s w "").2 ≠ some "cannot clone: repository URL not found") := by
  constructor
  · intro hne
    rcases hstore with ⟨hd, hs⟩ | ⟨hd, h1, h2⟩
    · have hl := locate_default_absent s w "" hd hs
      rw [if_neg (fun h => hne ⟨hd, h⟩)] at hl
      rw [performGitPullRebase_noURL s w "" _ _ hl]
      exact ⟨rfl, rfl⟩
    · rw [performGitPullRebase_noURL s w "" _ _ (locate_other_absent s w "" hd h1 h2)]
      exact ⟨rfl, rfl⟩
  · rintro ⟨hd, hp⟩
    rcases hstore with ⟨_, hs⟩ | ⟨hd', _⟩
    · have hl := locate_default_absent s w "" hd hs
      rw [if_pos hp] at hl
      rw [performGitPullRebase_update s w "" ⟨_, false, _⟩ (by rw [hl]) rfl]
      exact updateSequence_ne_cannot s w _
    · exact absurd hd hd'

/-- Witness of C2: the target `/srv/site` has no store and holds nothing. -/
theorem absent_store_empty_url_fails_witness :
    (noStore siteServer freshWorld ∧ ¬ populatedDefault siteServer freshWorld) ∧
    (performGitPullRebase siteServer freshWorld "").2
      = some "cannot clone: repository URL not found" ∧
    commands (performGitPullRebase siteServer freshWorld "").1 = [] :=
  ⟨⟨Or.inr ⟨by decide, rfl, rfl⟩, by unfold populatedDefault; decide⟩,
    (absent_store_empty_url_fails siteServer freshWorld (Or.inr ⟨by decide, rfl, rfl⟩)).1
      (by unfold populatedDefault; decide)⟩

/-- Counterexample to C2 as stated: `/app/public` holds a file, there is no
`/app/public.git`, no URL is supplied; the code runs two commands and the
error is the one of the pull. -/
theorem populated_default_empty_url_runs_update :
    noStore (defaultServer []) populatedWorld ∧
    commands (performGitPullRebase (defaultServer []) populatedWorld "").1
      = [stashCommand (defaultServer []) populatedWorld "/app/public.git",
          pullCommand (defaultServer []) populatedWorld "/app/public.git"] ∧
    (performGitPullRebase (defaultServer []) populatedWorld "").2
      = some "git pull rebase failed: exit status 128" ∧
    (performGitPullRebase (defaultServer []) populatedWorld "").2
      ≠ some "cannot clone: repository URL not found" :=
  ⟨Or.inl ⟨rfl, rfl⟩, by decide, by decide, by decide⟩

/-! ## C3: an existing store and no supplied URL -/

/-- C3 (amended): for a target directory whose metadata store `g` exists
and is not empty, and an empty supplied URL: when the remote query answers,
`performGitPullRebase` runs no clone and goes through the update sequence
on `g` (stash, pull, and stash drop after a successful pull, each with
`GIT_DIR` set to `g`); when the remote query fails, it returns the error
`failed to get remote URL: ...` of the remote lookup, which is not the
error `cannot clone: repository URL not found`, and it runs no command
besides the query: no clone, stash, pull or stash drop. -/
theorem existing_store_empty_url (s : DeployServer) (w : World) (g : String)
    (hstore : hasStore s w g) :
    (∀ out, w.output (configCommand w g) = Except.ok out →
      commands (performGitPullRebase s w "").1 =
        configCommand w g :: stashCommand s w g :: pullCommand s w g ::
          (if w.run (pullCommand s w g) = PipedOutcome.ok then [dropCommand s w g] else []) ∧
      "GIT_DIR=" ++ g ∈ (stashCommand s w g).env ∧ "GIT_DIR=" ++ g ∈ (pullCommand s w g).env) ∧
    (∀ e, w.output (configCommand w g) = Except.error e →
      (performGitPullRebase s w "").2 =
        some ("failed to get remote URL: " ++ ("failed to get remote URL: " ++ e)) ∧
      (performGitPullRebase s w "").2 ≠ some "cannot clone: repository URL not found" ∧
      commands (performGitPullRebase s w "").1 = [configCommand w g]) := by
  have hl := locate_existing s w g "" hstore
  constructor
  · intro out hout
    have h2 : (locate s w "").2 = Except.ok ⟨g, false, trimSpace out⟩ := by
      rw [hl]
      exact useExistingRemote_ok w g out hout
    refine ⟨?_, ?_, ?_⟩
    · rw [performGitPullRebase_update s w "" _ h2 rfl, hl]
      simp only [commands_append, updateSequence_commands]
      split <;> simp [commands]
    · simp [stashCommand, updateEnv]
    · simp [pullCommand, updateEnv]
  · intro e he
    have h2 : locate s w "" = ((if s.appDir = "/app/public" then [Event.mkdirAll "/app"] else [])
        ++ [Event.command (configCommand w g)],
        Except.error ("failed to get remote URL: " ++ ("failed to get remote URL: " ++ e))) := by
      rw [hl, useExistingRemote_error w g e he]
    rw [performGitPullRebase_error s w "" _ _ h2]
    refine ⟨rfl, ?_, ?_⟩
    · intro h
      simp only [Option.some.injEq] at h
      exact absurd (congrArg (fun x => x.data.head?) h) (by simp)
    · split <;> simp [commands_append, commands]

/-- Witness of C3: the checkout of `clonedWorld`, whose remote query answers. -/
theorem existing_store_empty_url_witness :
    (hasStore (defaultServer []) clonedWorld "/app/public.git" ∧
      clonedWorld.output (configCommand clonedWorld "/app/public.git")
        = Except.ok "git@example.test:org/repo.git\n") ∧
    commands (performGitPullRebase (defaultServer []) clonedWorld "").1 =
      configCommand clonedWorld "/app/public.git" ::
      stashCommand (defaultServer []) clonedWorld "/app/public.git" ::
      pullCommand (defaultServer []) clonedWorld "/app/public.git" ::
        (if clonedWorld.run (pullCommand (defaultServer []) clonedWorld "/app/public.git")
            = PipedOutcome.ok
          then [dropCommand (defaultServer []) clonedWorld "/app/public.git"] else []) :=
  ⟨⟨⟨rfl, by decide, Or.inl ⟨rfl, rfl⟩⟩, rfl⟩,
    ((existing_store_empty_url (defaultServer []) clonedWorld "/app/public.git"
      ⟨rfl, by decide, Or.inl ⟨rfl, rfl⟩⟩).1 "git@example.test:org/repo.git\n" rfl).1⟩

/-- Counterexample to C3 as stated: the store exists and is not empty, no
remote is configured and no URL is supplied; the error returned is the one
of the remote lookup, not `cannot clone: repository URL not found`. -/
theorem unresolved_remote_failure_message :
    hasStore (defaultServer []) noRemoteWorld "/app/public.git" ∧
    (getRemoteURL noRemoteWorld "/app/public.git").2
      = Except.error "failed to get remote URL: exit status 1" ∧
    (performGitPullRebase (defaultServer []) noRemoteWorld "").2
      = some "failed to get remote URL: failed to get remote URL: exit status 1" ∧
    (performGitPullRebase (defaultServer []) noRemoteWorld "").2
      ≠ some "cannot clone: repository URL not found" :=
  ⟨⟨rfl, by decide, Or.inl ⟨rfl, rfl⟩⟩, by decide, by decide, by decide⟩

/-! ## C4, C5: the update sequence -/

/-- C4: on the update path, a pull that does not succeed makes
`performGitPullRebase` return an error, and the pull is the last effect of
the call: the commands are the remote query of the detection (if any), the
stash and the pull, none of them a stash drop, pop or apply. When the pull
command itself fails (`Wait` returns the error `e`) the error returned is
`git pull rebase failed: e`. -/
theorem pull_failure_aborts (s : DeployServer) (w : World) (repoURL : String) (loc : Located)
    (hloc : (locate s w repoURL).2 = Except.ok loc) (hupd : loc.needsClone = false)
    (hpull : w.run (pullCommand s w loc.gitDir) ≠ PipedOutcome.ok) :
    (performGitPullRebase s w repoURL).2 ≠ none ∧
    (∀ e, w.run (pullCommand s w loc.gitDir) = PipedOutcome.waitErr e →
      (performGitPullRebase s w repoURL).2 = some ("git pull rebase failed: " ++ e)) ∧
    (performGitPullRebase s w repoURL).1 =
      (locate s w repoURL).1 ++ [Event.command (stashCommand s w loc.gitDir)]
        ++ writeIgnore s w loc.gitDir ++ [Event.command (pullCommand s w loc.gitDir)] ∧
    commands (performGitPullRebase s w repoURL).1 =
      commands (locate s w repoURL).1
        ++ [stashCommand s w loc.gitDir, pullCommand s w loc.gitDir] ∧
    ∀ c ∈ commands (performGitPullRebase s w repoURL).1, isStashRestore c = false := by
  have hcmd : commands (performGitPullRebase s w repoURL).1 =
      commands (locate s w repoURL).1
        ++ [stashCommand s w loc.gitDir, pullCommand s w loc.gitDir] := by
    rw [performGitPullRebase_update s w repoURL loc hloc hupd]
    simp only [commands_append, updateSequence_commands, if_neg hpull]
  refine ⟨?_, ?_, ?_, hcmd, ?_⟩
  · rw [performGitPullRebase_update s w repoURL loc hloc hupd]
    exact fun h => hpull ((updateSequence_result s w loc.gitDir).mp h)
  · intro e he
    rw [performGitPullRebase_update s w repoURL loc hloc hupd]
    unfold updateSequence
    dsimp only
    rw [he]
  · rw [performGitPullRebase_update s w repoURL loc hloc hupd]
    simp only [updateSequence_trace, if_neg hpull, List.append_nil, List.append_assoc]
  · intro c hc
    rw [hcmd] at hc
    simp only [List.mem_append, List.mem_cons, List.mem_singleton, List.not_mem_nil,
      or_false] at hc
    rcases hc with hc | rfl | rfl
    · simp [isStashRestore, locate_commands s w repoURL c hc]
    · rfl
    · rfl

/-- Witness of C4: the checkout of `conflictWorld`, whose pull exits with an error. -/
theorem pull_failure_aborts_witness :
    ((locate (defaultServer ["*.log"]) conflictWorld "").2
        = Except.ok ⟨"/app/public.git", false, "git@example.test:org/repo.git"⟩ ∧
      conflictWorld.run (pullCommand (defaultServer ["*.log"]) conflictWorld "/app/public.git")
        = PipedOutcome.waitErr "exit status 1") ∧
    (performGitPullRebase (defaultServer ["*.log"]) conflictWorld "").2
      = some ("git pull rebase failed: " ++ "exit status 1") :=
  ⟨⟨by decide, rfl⟩,
    (pull_failure_aborts (defaultServer ["*.log"]) conflictWorld ""
      ⟨"/app/public.git", false, "git@example.test:org/repo.git"⟩ (by decide) rfl
      (by decide)).2.1 "exit status 1" rfl⟩

/-- C5: on the update path the advisory steps never decide the outcome.
Whatever the stash, the opening of and the writes to the exclude file and
the stash drop answer (the world is arbitrary), a pull that succeeds makes
`performGitPullRebase` return `nil`, and the pull is run right after the
stash, also when the stash failed, and is followed by the stash drop. -/
theorem advisory_steps_never_decide (s : DeployServer) (w : World) (repoURL : String)
    (loc : Located)
    (hloc : (locate s w repoURL).2 = Except.ok loc) (hupd : loc.needsClone = false)
    (hpull : w.run (pullCommand s w loc.gitDir) = PipedOutcome.ok) :
    (performGitPullRebase s w repoURL).2 = none ∧
    commands (performGitPullRebase s w repoURL).1 =
      commands (locate s w repoURL).1
        ++ [stashCommand s w loc.gitDir, pullCommand s w loc.gitDir,
          dropCommand s w loc.gitDir] := by
  rw [performGitPullRebase_update s w repoURL loc hloc hupd]
  refine ⟨(updateSequence_result s w loc.gitDir).mpr hpull, ?_⟩
  simp only [commands_append, updateSequence_commands, if_pos hpull]

/-- Witness of C5: in `advisoryFailWorld` the stash fails, the exclude file
cannot be opened and the stash drop fails, while the pull succeeds. -/
theorem advisory_steps_never_decide_witness :
    ((locate (defaultServer ["*.log"]) advisoryFailWorld "").2
        = Except.ok ⟨"/app/public.git", false, "git@example.test:org/repo.git"⟩ ∧
      advisoryFailWorld.output
          (stashCommand (defaultServer ["*.log"]) advisoryFailWorld "/app/public.git")
        = Except.error "exit status 1" ∧
      advisoryFailWorld.openFile (excludePath "/app/public.git") = false ∧
      advisoryFailWorld.output
          (dropCommand (defaultServer ["*.log"]) advisoryFailWorld "/app/public.git")
        = Except.error "exit status 1" ∧
      advisoryFailWorld.run
          (pullCommand (defaultServer ["*.log"]) advisoryFailWorld "/app/public.git")
        = PipedOutcome.ok) ∧
    (performGitPullRebase (defaultServer ["*.log"]) advisoryFailWorld "").2 = none :=
  ⟨⟨by decide, by decide, rfl, by decide, rfl⟩,
    (advisory_steps_never_decide (defaultServer ["*.log"]) advisoryFailWorld ""
      ⟨"/app/public.git", false, "git@example.test:org/repo.git"⟩ (by decide) rfl rfl).1⟩

/-! ## C6: a store directory without entries -/

/-- C6 at its failing input: the target `/srv/site` has a `.git` directory
without entries and a URL is supplied. The code queries the remote, then
runs the stash and the pull on the empty directory and returns the error of
the pull; it runs no clone, though one would succeed. The sibling layout
does what the claim says: with `/app/public.git` empty the default target
is cloned, as `/srv/site` is when it has no `.git` at all. -/
theorem empty_embedded_store_not_recloned :
    (emptyEmbeddedWorld.stat "/srv/site/.git" = StatResult.found ∧
      emptyEmbeddedWorld.readDir "/srv/site/.git" = Except.ok []) ∧
    ((commands (performGitPullRebase siteServer emptyEmbeddedWorld
        "https://example.test/repo.git").1).map (fun c => c.args)
      = [["git", "config", "--get", "remote.origin.url"], ["git", "stash", "-u"],
          ["git", "pull", "--rebase"]] ∧
      (performGitPullRebase siteServer emptyEmbeddedWorld "https://example.test/repo.git").2
        = some "git pull rebase failed: exit status 128") ∧
    ((commands (performGitPullRebase (defaultServer []) emptySeparateWorld
        "https://example.test/repo.git").1).map (fun c => c.args)
      = [["git", "clone", "--separate-git-dir=/app/public.git",
          "https://example.test/repo.git", "/app/public"]] ∧
      (performGitPullRebase (defaultServer []) emptySeparateWorld
        "https://example.test/repo.git").2 = none) ∧
    (commands (performGitPullRebase siteServer freshWorld
        "https://example.test/repo.git").1).map (fun c => c.args)
      = [["git", "clone", "https://example.test/repo.git", "/srv/site"]] :=
  ⟨⟨rfl, rfl⟩, ⟨by decide, by decide⟩, ⟨by decide, by decide⟩, by decide⟩

/-! ## C7, C8: the exclude file -/

theorem writesTo_writePatterns (w : World) (p : String)
    (hw : ∀ k d, w.write p k d = WriteResult.ok) (ps : List String) (k : Nat) :
    writesTo p (writePatterns w p ps k) = patternLines ps := by
  induction ps generalizing k with
  | nil => rfl
  | cons a ps ih =>
    unfold writePatterns
    dsimp only
    by_cases ha : trimSpace a = ""
    · rw [if_neg (not_not.mpr ha), ih]
      simp [patternLines, ha]
    · rw [if_pos ha, writesTo_append, ih]
      simp [patternLines, ha, writeString, hw, writesTo]

theorem writesTo_writeIgnore (s : DeployServer) (w : World) (g : String)
    (hpat : s.gitIgnore ≠ []) (hopen : w.openFile (excludePath g) = true)
    (hw : ∀ k d, w.write (excludePath g) k d = WriteResult.ok) :
    writesTo (excludePath g) (writeIgnore s w g) = excludeHeader :: patternLines s.gitIgnore := by
  unfold writeIgnore
  have hlen : s.gitIgnore.length > 0 := List.length_pos.mpr hpat
  rw [if_pos hlen]
  dsimp only
  rw [if_pos hopen]
  simp [writesTo_append, writesTo_writePatterns w _ hw, writeString, hw, writesTo]

theorem writesTo_update (s : DeployServer) (w : World) (repoURL : String) (loc : Located)
    (hloc : (locate s w repoURL).2 = Except.ok loc) (hupd : loc.needsClone = false) (p : String) :
    writesTo p (performGitPullRebase s w repoURL).1 = writesTo p (writeIgnore s w loc.gitDir) := by
  rw [performGitPullRebase_update s w repoURL loc hloc hupd]
  simp only [writesTo_append, locate_writes, updateSequence_trace, List.nil_append]
  split <;> simp [writesTo]

theorem patternLines_length (ps : List String) : (patternLines ps).length ≤ ps.length := by
  unfold patternLines
  rw [List.length_map]
  exact (List.length_filter_le _ _).trans (by rw [List.length_map])

theorem patternLines_clean (ps : List String) (h : ∀ p ∈ ps, trimSpace p = p ∧ p ≠ "") :
    patternLines ps = ps.map (fun p => p ++ "\n") := by
  induction ps with
  | nil => rfl
  | cons a ps ih =>
    have ha := h a (List.mem_cons_self _ _)
    have ih' := ih (fun p hp => h p (List.mem_cons_of_mem _ hp))
    unfold patternLines at ih' ⊢
    simp only [List.map_cons, ha.1, List.filter_cons, ne_eq, ha.2, not_false_eq_true,
      decide_True, if_true, List.cons.injEq, true_and]
    simpa using ih'

/-- C7: the ignore-pattern write only appends and does not deduplicate.
For a non-empty pattern list, any prior content `c` of the exclude file of
the metadata directory `g` and any list of runs, each on the update path of
`g` with the file opening and every write succeeding, the file afterwards
is `c` followed by one copy per run of the block `ignoreBlock`, which is
what a single run appends; so `c` starts the result and the length grows by
one block per run. -/
theorem exclude_file_append_only (s : DeployServer) (runs : List (World × String))
    (g c : String) (hpat : s.gitIgnore ≠ [])
    (hruns : ∀ r ∈ runs,
      (∃ u, (locate s r.1 r.2).2 = Except.ok ⟨g, false, u⟩) ∧
      r.1.openFile (excludePath g) = true ∧
      ∀ k d, r.1.write (excludePath g) k d = WriteResult.ok) :
    fileAfterRuns s (excludePath g) runs c
      = c ++ repeatBlock (ignoreBlock s.gitIgnore) runs.length ∧
    (∀ r ∈ runs, fileAfter (excludePath g) "" (performGitPullRebase s r.1 r.2).1
      = ignoreBlock s.gitIgnore) ∧
    c.data <+: (fileAfterRuns s (excludePath g) runs c).data ∧
    (fileAfterRuns s (excludePath g) runs c).length
      = c.length + runs.length * (ignoreBlock s.gitIgnore).length := by
  have hone : ∀ r ∈ runs, writesTo (excludePath g) (performGitPullRebase s r.1 r.2).1
      = excludeHeader :: patternLines s.gitIgnore := by
    intro r hr
    obtain ⟨⟨u, hu⟩, hopen, hw⟩ := hruns r hr
    rw [writesTo_update s r.1 r.2 _ hu rfl]
    exact writesTo_writeIgnore s r.1 g hpat hopen hw
  have hmain : ∀ (rs : List (World × String)) (c : String), (∀ r ∈ rs, r ∈ runs) →
      fileAfterRuns s (excludePath g) rs c
        = c ++ repeatBlock (ignoreBlock s.gitIgnore) rs.length := by
    intro rs
    induction rs with
    | nil => intro c _; simp [fileAfterRuns, repeatBlock]
    | cons r rs ih =>
      intro c hsub
      obtain ⟨w, url⟩ := r
      have h1 := hone (w, url) (hsub _ (List.mem_cons_self _ _))
      simp only at h1
      simp only [fileAfterRuns, List.length_cons, repeatBlock]
      rw [ih _ (fun r hr => hsub r (List.mem_cons_of_mem _ hr))]
      simp only [fileAfter, h1, concatAll, ignoreBlock, String.append_assoc]
  have hlen : ∀ n : Nat, (repeatBlock (ignoreBlock s.gitIgnore) n).length
      = n * (ignoreBlock s.gitIgnore).length := by
    intro n
    induction n with
    | zero => simp [repeatBlock]
    | succ n ih => simp [repeatBlock, ih, Nat.succ_mul, Nat.add_comm]
  have hall := hmain runs c (fun _ h => h)
  refine ⟨hall, ?_, ?_, ?_⟩
  · intro r hr
    simp [fileAfter, hone r hr, concatAll, ignoreBlock]
  · rw [hall, String.data_append]
    exact List.prefix_append _ _
  · rw [hall, String.length_append, hlen]

/-- Witness of C7: two runs on the checkout of `clonedWorld` with the
patterns `*.log` and `tmp/`, the exclude file holding `# local` before. -/
theorem exclude_file_append_only_witness :
    fileAfterRuns (defaultServer ["*.log", "tmp/"]) (excludePath "/app/public.git")
        [(clonedWorld, ""), (clonedWorld, "")] "# local\n"
      = "# local\n" ++ repeatBlock (ignoreBlock (defaultServer ["*.log", "tmp/"]).gitIgnore)
          [(clonedWorld, ""), (clonedWorld, "")].length :=
  (exclude_file_append_only (defaultServer ["*.log", "tmp/"])
    [(clonedWorld, ""), (clonedWorld, "")] "/app/public.git" "# local\n" (by decide)
    (by
      intro r hr
      simp only [List.mem_cons, List.mem_singleton, List.not_mem_nil, or_false, or_self] at hr
      subst hr
      exact ⟨⟨"git@example.test:org/repo.git", by decide⟩, rfl, fun _ _ => rfl⟩)).1

/-- C8 (amended): for a non-empty pattern list, one update cycle whose file
operations succeed writes to the exclude file the header (an empty line,
then the line `# Added by GoPull GITIGNORE`) and after it, in configured
order and one per line, every configured pattern that is not blank, with
its surrounding white space removed. There are at most as many pattern
lines as configured patterns; the lines are the configured patterns
themselves when none of them is empty or carries surrounding white space. -/
theorem ignore_block_lines (s : DeployServer) (w : World) (repoURL g u : String)
    (hpat : s.gitIgnore ≠ [])
    (hloc : (locate s w repoURL).2 = Except.ok ⟨g, false, u⟩)
    (hopen : w.openFile (excludePath g) = true)
    (hw : ∀ k d, w.write (excludePath g) k d = WriteResult.ok) :
    writesTo (excludePath g) (performGitPullRebase s w repoURL).1
      = "\n# Added by GoPull GITIGNORE\n" ::
        (((s.gitIgnore.map trimSpace).filter (fun p => p ≠ "")).map (fun p => p ++ "\n")) ∧
    (((s.gitIgnore.map trimSpace).filter (fun p => p ≠ "")).map (fun p => p ++ "\n")).length
      ≤ s.gitIgnore.length ∧
    ((∀ p ∈ s.gitIgnore, trimSpace p = p ∧ p ≠ "") →
      writesTo (excludePath g) (performGitPullRebase s w repoURL).1
        = "\n# Added by GoPull GITIGNORE\n" :: s.gitIgnore.map (fun p => p ++ "\n")) := by
  have h1 : writesTo (excludePath g) (performGitPullRebase s w repoURL).1
      = excludeHeader :: patternLines s.gitIgnore := by
    rw [writesTo_update s w repoURL _ hloc rfl]
    exact writesTo_writeIgnore s w g hpat hopen hw
  refine ⟨h1, patternLines_length s.gitIgnore, ?_⟩
  intro hclean
  rw [h1, patternLines_clean _ hclean]
  rfl

/-- Witness of C8: one run on the checkout of `clonedWorld` with the
patterns `*.log` and `tmp/`. -/
theorem ignore_block_lines_witness :
    writesTo (excludePath "/app/public.git")
        (performGitPullRebase (defaultServer ["*.log", "tmp/"]) clonedWorld "").1
      = "\n# Added by GoPull GITIGNORE\n" ::
        ((((defaultServer ["*.log", "tmp/"]).gitIgnore.map trimSpace).filter
          (fun p => p ≠ "")).map (fun p => p ++ "\n")) :=
  (ignore_block_lines (defaultServer ["*.log", "tmp/"]) clonedWorld "" "/app/public.git"
    "git@example.test:org/repo.git" (by decide) (by decide) rfl (fun _ _ => rfl)).1

/-- Counterexample to C8 as stated: `GITIGNORE` is `a, b,,c`, four
configured patterns; the block has three pattern lines, and its second
line is `b`, not the second configured pattern ` b`. -/
theorem blank_and_padded_patterns_differ :
    parseGitIgnore "a, b,,c" = ["a", " b", "", "c"] ∧
    writesTo (excludePath "/app/public.git")
        (performGitPullRebase (defaultServer (parseGitIgnore "a, b,,c")) clonedWorld "").1
      = ["\n# Added by GoPull GITIGNORE\n", "a\n", "b\n", "c\n"] ∧
    (writesTo (excludePath "/app/public.git")
        (performGitPullRebase (defaultServer (parseGitIgnore "a, b,,c")) clonedWorld "").1).length
      - 1 ≠ (parseGitIgnore "a, b,,c").length ∧
    (writesTo (excludePath "/app/public.git")
        (performGitPullRebase (defaultServer (parseGitIgnore "a, b,,c")) clonedWorld "").1).get? 2
      ≠ ((parseGitIgnore "a, b,,c").get? 1).map (fun p => p ++ "\n") :=
  ⟨by decide, by decide, by decide, by decide⟩

/-! ## C9, C10: the request handler -/

/-- With a secret key configured, `handleDeployRequest` calls
`performGitPullRebase` only for a POST whose `deploy` parameter is the key. -/
theorem keyed_handler_requires_key (s : DeployServer) (w : World) (r : Request)
    (hkey : s.secretKey ≠ "") (hrec : (handleDeployRequest s w r).reconciled ≠ none) :
    r.method = "POST" ∧ r.deploy = s.secretKey := by
  unfold handleDeployRequest at hrec
  by_cases hm : r.method = "POST"
  · refine ⟨hm, ?_⟩
    by_contra hd
    by_cases he : r.deploy = "" <;> simp [hm, hkey, hd, he] at hrec
  · simp [hm] at hrec

/-- C9 at its failing input: no secret key is configured, for which `main`
logs that the webhook will be disabled, and a POST without any `deploy`
parameter arrives. The handler calls `performGitPullRebase`, the update
commands run and the response is `200 Deployment successful`. -/
theorem empty_secret_key_still_deploys :
    modeCheck "" "" "https://example.test/repo.git"
      = Except.ok ["Running in non-PRIVATE mode, SSH keys will not be generated",
          "No DEPLOY_KEY provided. Webhook functionality will be disabled."] ∧
    (defaultServer []).secretKey = "" ∧
    (handleDeployRequest (defaultServer []) clonedWorld
      ⟨"POST", "", Except.ok ""⟩).reconciled = some "" ∧
    (handleDeployRequest (defaultServer []) clonedWorld
      ⟨"POST", "", Except.ok ""⟩).response = ⟨200, "Deployment successful"⟩ ∧
    (commands (handleDeployRequest (defaultServer []) clonedWorld
      ⟨"POST", "", Except.ok ""⟩).trace).map (fun c => c.args)
      = [["git", "config", "--get", "remote.origin.url"], ["git", "stash", "-u"],
          ["git", "pull", "--rebase"], ["git", "stash", "drop"]] :=
  ⟨by decide, rfl, by decide, by decide, by decide⟩

/-- C10: the URL `handleDeployRequest` derives from a parsed payload and
the presence of the private key is always `ssh_url`, `clone_url` or empty.
Without the key it is `clone_url`, never a choice of `ssh_url`; for a
private repository with the key and a non-empty `ssh_url` it is `ssh_url`;
for a public repository with a non-empty `clone_url` it is `clone_url`; it
is empty exactly when `clone_url` is empty and the key is absent or
`ssh_url` is empty. This is the URL the handler passes on for a body that
parses to the payload. -/
theorem chooseRepoURL_selection (payload : GitHubPayload) (privateKeyExists : Bool) :
    (chooseRepoURL payload privateKeyExists = payload.Repository.SSHURL ∨
      chooseRepoURL payload privateKeyExists = payload.Repository.CloneURL ∨
      chooseRepoURL payload privateKeyExists = "") ∧
    (privateKeyExists = false →
      chooseRepoURL payload privateKeyExists = payload.Repository.CloneURL) ∧
    (payload.Repository.Private = true ∧ privateKeyExists = true ∧
        payload.Repository.SSHURL ≠ "" →
      chooseRepoURL payload privateKeyExists = payload.Repository.SSHURL) ∧
    (payload.Repository.Private = false ∧ payload.Repository.CloneURL ≠ "" →
      chooseRepoURL payload privateKeyExists = payload.Repository.CloneURL) ∧
    (chooseRepoURL payload privateKeyExists = "" ↔
      payload.Repository.CloneURL = "" ∧
        (privateKeyExists = false ∨ payload.Repository.SSHURL = "")) ∧
    (∀ (s : DeployServer) (w : World) (body : String), w.unmarshal body = some payload →
      requestRepoURL s w body
        = chooseRepoURL payload (decide (w.stat s.sshKeyPath = StatResult.found))) := by
  refine ⟨?_, ?_, ?_, ?_, ?_, ?_⟩
  on_goal 6 =>
    intro s w body hb
    unfold requestRepoURL
    rw [hb]
  all_goals
    obtain ⟨⟨ssh, clone, priv⟩⟩ := payload
    unfold chooseRepoURL
    by_cases hs : ssh = "" <;> by_cases hc : clone = "" <;> cases priv <;>
      cases privateKeyExists <;> simp [hs, hc]

end GoPull
